import Mathlib

/-!
# Verification of the viral-clip pipeline

A shallow embedding of the viral-moment detection engine and the two job
orchestrators of the repository (sources: `src/lib/transcription.ts`,
`src/app/api/process/route.ts`, `src/app/api/ingest/route.ts`), together
with theorems settling the frozen claims about them.

Modelling conventions:
* JavaScript numbers appearing in the algorithms (timestamps, scores,
  durations) are embedded as rationals `ℚ`; all arithmetic performed by the
  code on them is exact at these magnitudes, so no floating-point rounding
  is modelled.
* JavaScript strings are embedded as `List Char`; `toLowerCase` is embedded
  as ASCII lowercasing (every string the code compares against is ASCII).
* The JS field `end` of a transcript segment or a moment is called `stop`
  here (`end` is a Lean keyword).
* The `id` fields produced by `uuidv4()` are nondeterministic fresh names on
  which no claim depends; they are omitted from the embedded records.
* External collaborators (OpenAI ranking call, ffmpeg, ytdl, the file
  system) are modelled as oracle parameters at their exact call boundary,
  with the surrounding control flow (try/catch, fallbacks, deletions)
  embedded from the code.
-/

namespace ViralClips

/-! ## Character-level string primitives (JS string operations) -/

/-- ASCII lowercasing of one character, the fragment of JS `toLowerCase`
relevant to the ASCII lexicons and texts the detector compares. -/
def lowerChar (c : Char) : Char :=
  if 'A' ≤ c ∧ c ≤ 'Z' then Char.ofNat (c.toNat + 32) else c

/-- JS `String.prototype.includes`: `needle` occurs contiguously in `hay`. -/
def containsSub (hay needle : List Char) : Bool :=
  match hay with
  | [] => needle.isEmpty
  | _ :: t => needle.isPrefixOf hay || containsSub t needle

/-- Number of occurrences of character `c` (JS `text.match(/c/g).length`). -/
def countChar (c : Char) (l : List Char) : ℕ :=
  (l.filter (fun d => d == c)).length

/-- Sentence delimiters of the regex `[.!?]+` used by the scorer. -/
def isSentenceDelim (c : Char) : Bool :=
  c == '.' || c == '!' || c == '?'

/-- Split accumulator for `splitOnDelims`. -/
def splitAux : List Char → List Char → List (List Char)
  | [], acc => [acc.reverse]
  | c :: t, acc =>
    if isSentenceDelim c then acc.reverse :: splitAux t [] else splitAux t (c :: acc)

/-- Split a text at every single sentence delimiter. The scorer only uses the
number of chunks that survive the `trim`-nonempty filter, which agrees with
the count produced by the JS split on the delimiter-run regex `[.!?]+`. -/
def splitOnDelims (l : List Char) : List (List Char) :=
  splitAux l []

/-- JS whitespace characters occurring in transcripts. -/
def isJsSpace (c : Char) : Bool :=
  c == ' ' || c == '\t' || c == '\n' || c == '\r'

/-- JS `s.trim().length > 0`. -/
def trimNonempty (l : List Char) : Bool :=
  l.any (fun c => !(isJsSpace c))

/-- JS `Array.prototype.join(sep)`. -/
def joinWith (sep : List Char) : List (List Char) → List Char
  | [] => []
  | [x] => x
  | x :: xs => x ++ sep ++ joinWith sep xs

/-- JS `s.trim()` (strip leading and trailing whitespace). -/
def jsTrim (l : List Char) : List Char :=
  ((l.dropWhile isJsSpace).reverse.dropWhile isJsSpace).reverse

/-! ## Data model -/

/-- `TranscriptSegment` of `src/types` (the optional `confidence` field is
never read by the verified components and is omitted). -/
structure TranscriptSegment where
  text : List Char
  start : ℚ
  stop : ℚ
deriving DecidableEq, Repr

/-- `ViralMoment` of `src/types`, minus the nondeterministic `id`. -/
structure ViralMoment where
  start : ℚ
  stop : ℚ
  score : ℚ
  text : List Char
  reason : List Char
  emotions : List (List Char)
  keywords : List (List Char)
deriving DecidableEq, Repr

/-! ## Lexicons (`src/lib/transcription.ts`, viral-detector section) -/

/-- `VIRAL_KEYWORDS`. -/
def VIRAL_KEYWORDS : List (List Char) :=
  ["shocking", "crazy", "insane", "unbelievable", "secret", "revealed", "truth",
   "amazing", "incredible", "must see", "warning", "exposed", "never", "always",
   "everyone", "nobody", "mistake", "hack", "trick", "best", "worst", "first time",
   "story", "happened", "realized", "discovered", "finally", "actually"].map String.data

/-- `EMOTION_KEYWORDS`, in object-entry order. -/
def EMOTION_KEYWORDS : List (List Char × List (List Char)) :=
  [("excitement".data, ["excited", "amazing", "incredible", "wow", "awesome", "fantastic"].map String.data),
   ("surprise".data, ["shocking", "surprised", "unexpected", "suddenly", "wait", "what"].map String.data),
   ("urgency".data, ["now", "must", "need", "quick", "important", "immediately"].map String.data),
   ("curiosity".data, ["why", "how", "what if", "imagine", "think about", "ever wondered"].map String.data),
   ("controversy".data, ["wrong", "lie", "truth", "exposed", "hidden", "secret"].map String.data)]

/-! ## Heuristic scorer (`calculateViralScore` and friends) -/

/-- `Math.min` on exact rationals, written with an explicit comparison so
that concrete scores evaluate inside the kernel. -/
def ratMin (a b : ℚ) : ℚ := if a ≤ b then a else b

/-- `calculateViralScore(text, segments)`. For an empty `segments` array the
JS code computes `NaN` as the average length (and hence grants no punchiness
bonus); the detector only ever calls this with non-empty windows, and the
claims about it assume a non-empty segment list. -/
def calculateViralScore (text : List Char) (segments : List TranscriptSegment) : ℚ :=
  let lowerText := text.map lowerChar
  let keywordMatches := (VIRAL_KEYWORDS.filter (fun kw => containsSub lowerText kw)).length
  let emotionCount : ℕ := EMOTION_KEYWORDS.foldl
    (fun count p => count + (p.2.filter (fun kw => containsSub lowerText kw)).length) 0
  let questionMarks := countChar '?' text
  let exclamations := countChar '!' text
  let totalLen : ℕ := segments.foldl (fun sum s => sum + s.text.length) 0
  let avgSegmentLength : ℚ := (totalLen : ℚ) / (segments.length : ℚ)
  let sentences := (splitOnDelims text).filter trimNonempty
  let score : ℚ :=
    (keywordMatches : ℚ) * 0.1 + (emotionCount : ℚ) * 0.08 +
    (questionMarks : ℚ) * 0.15 + (exclamations : ℚ) * 0.1 +
    (if avgSegmentLength < 50 then 0.2 else 0) +
    (if 3 ≤ sentences.length ∧ sentences.length ≤ 8 then 0.15 else 0)
  ratMin score 1

/-- `detectEmotions(text)`. -/
def detectEmotions (text : List Char) : List (List Char) :=
  let lowerText := text.map lowerChar
  (EMOTION_KEYWORDS.filter (fun p => p.2.any (fun kw => containsSub lowerText kw))).map Prod.fst

/-- `extractKeywords(text)`. -/
def extractKeywords (text : List Char) : List (List Char) :=
  let lowerText := text.map lowerChar
  VIRAL_KEYWORDS.filter (fun kw => containsSub lowerText kw)

/-- `generateReason(text, score)` (the `score` argument is unused in the
source as well). -/
def generateReason (text : List Char) (_score : ℚ) : List Char :=
  let reasons : List (List Char) :=
    (if text.any (fun c => c == '?') then ["Engaging question".data] else []) ++
    (if text.any (fun c => c == '!') then ["High energy".data] else []) ++
    (if 0 < (extractKeywords text).length then ["Viral keywords".data] else []) ++
    (if 2 < (detectEmotions text).length then ["Emotional appeal".data] else [])
  if reasons.isEmpty then "Interesting content".data else joinWith ", ".data reasons

/-! ## Candidate generation (the sliding-window double loop of
`detectViralMoments`) -/

/-- Placeholder segment for total list indexing; every access in the scan is
within bounds. -/
def dummySeg : TranscriptSegment := ⟨[], 0, 0⟩

/-- `segments[i]`. -/
def segGet (segs : List TranscriptSegment) (i : ℕ) : TranscriptSegment :=
  segs.getD i dummySeg

/-- `segments.slice(i, j + 1)`, the window of segments `i .. j`. -/
def windowOf (segs : List TranscriptSegment) (i j : ℕ) : List TranscriptSegment :=
  (segs.drop i).take (j + 1 - i)

/-- `windowSegments.map(s => s.text).join(' ')`. -/
def windowTextOf (segs : List TranscriptSegment) (i j : ℕ) : List Char :=
  joinWith [' '] ((windowOf segs i j).map TranscriptSegment.text)

/-- The heuristic score of window `[i, j]`. -/
def windowScoreOf (segs : List TranscriptSegment) (i j : ℕ) : ℚ :=
  calculateViralScore (windowTextOf segs i j) (windowOf segs i j)

/-- `segments[j].end - segments[i].start`, the time span of window `[i, j]`. -/
def windowDur (segs : List TranscriptSegment) (i j : ℕ) : ℚ :=
  (segGet segs j).stop - (segGet segs i).start

/-- The `ViralMoment` object pushed for window `[i, j]`. -/
def mkWindowMoment (segs : List TranscriptSegment) (i j : ℕ) : ViralMoment :=
  { start := (segGet segs i).start
    stop := (segGet segs j).stop
    score := windowScoreOf segs i j
    text := windowTextOf segs i j
    reason := generateReason (windowTextOf segs i j) (windowScoreOf segs i j)
    emotions := detectEmotions (windowTextOf segs i j)
    keywords := extractKeywords (windowTextOf segs i j) }

/-- The inner `for (let j = i + 1; ...)` loop of `detectViralMoments`,
starting at end index `j`: `continue` on `duration < minDuration`, `break` on
`duration > maxDuration`, push on `score > 0.5`. `fuel` bounds the number of
iterations; every caller passes at least `segments.length - j`. -/
def innerScan (segs : List TranscriptSegment) (minD maxD : ℚ) (i : ℕ) :
    ℕ → ℕ → List ViralMoment
  | _, 0 => []
  | j, fuel + 1 =>
    if j < segs.length then
      let d := windowDur segs i j
      if d < minD then innerScan segs minD maxD i (j + 1) fuel
      else if maxD < d then []
      else
        (if 0.5 < windowScoreOf segs i j then [mkWindowMoment segs i j] else []) ++
          innerScan segs minD maxD i (j + 1) fuel
    else []

/-- The candidate-generation phase of `detectViralMoments` (lines 264-300):
both nested loops, producing heuristic-scored moments in discovery order. -/
def detectCandidates (segs : List TranscriptSegment) (minD maxD : ℚ) : List ViralMoment :=
  (List.range segs.length).flatMap (fun i => innerScan segs minD maxD i (i + 1) segs.length)

/-! ## Sorting (`moments.sort((a, b) => b.score - a.score)`)

`Array.prototype.sort` is required to be stable (ES2019), so the comparator
`(a, b) => b.score - a.score` performs a stable descending sort on `score`.
The unique stable descending sort is embedded as insertion sort. -/

/-- The descending comparison used by both sort calls. -/
def scoreGe (a b : ViralMoment) : Prop := b.score ≤ a.score

instance : DecidableRel scoreGe := fun a b => inferInstanceAs (Decidable (b.score ≤ a.score))

/-- Stable descending-by-score sort. -/
def sortByScoreDesc (l : List ViralMoment) : List ViralMoment :=
  l.insertionSort scoreGe

/-! ## AI refinement (`refineWithAI`) -/

/-- One entry of the JSON array the ranking service is asked to return:
`{clipNumber, viralScore, reason}`. A missing or empty `reason` string is
falsy in JS and falls back to the heuristic reason. -/
structure Ranking where
  clipNumber : ℕ
  viralScore : ℚ
  reason : Option (List Char)
deriving DecidableEq, Repr

/-- The ranking-service call boundary: `none` models any throw inside the
`try` block (unreachable service, timeout, `JSON.parse` failure); `some rs`
models a parsed response whose `result.clips` field yielded the array `rs`
(a parsed object with no `clips` field yields `some []`). -/
def RankResponse : Type := Option (List Ranking)

/-- The success path of `refineWithAI`: `moments.map((moment, index) => ...)`
overwriting `score` (and `reason`) of every moment addressed by `clipNumber
== index + 1`. -/
def applyRankings (rankings : List Ranking) (moments : List ViralMoment) : List ViralMoment :=
  moments.enum.map (fun p =>
    match rankings.find? (fun r => r.clipNumber == p.1 + 1) with
    | some r =>
      { p.2 with
        score := r.viralScore / 10
        reason := match r.reason with
          | some s => if s.isEmpty then p.2.reason else s
          | none => p.2.reason }
    | none => p.2)

/-- `refineWithAI(moments, fullTranscript)`: on any failure the `catch`
returns the input list unchanged. The transcript context only influences the
prompt, hence is absorbed into the response oracle. -/
def refineWithAI (resp : RankResponse) (moments : List ViralMoment) : List ViralMoment :=
  match resp with
  | none => moments
  | some rankings => applyRankings rankings moments

/-! ## The full detector (`detectViralMoments`) -/

/-- `detectViralMoments(segments, minDuration = 10, maxDuration = 60)` with
the ranking-service response supplied as an oracle: scan, sort, keep top 20,
refine, sort again, keep top 10. -/
def detectViralMoments (resp : RankResponse) (segs : List TranscriptSegment)
    (minD maxD : ℚ) : List ViralMoment :=
  let moments := detectCandidates segs minD maxD
  let topMoments := (sortByScoreDesc moments).take 20
  let refinedMoments := refineWithAI resp topMoments
  (sortByScoreDesc refinedMoments).take 10

/-- Modelled from the spec: "a detector that uses only the heuristic scorer"
(§8), the comparison point of the refinement-transparency claim — the same
scan and bound, with the refinement pass omitted. -/
def detectHeuristicOnly (segs : List TranscriptSegment) (minD maxD : ℚ) : List ViralMoment :=
  (sortByScoreDesc (detectCandidates segs minD maxD)).take 10

/-! ## Orderedness of transcripts

The data model (§3) assumes segments are ordered by `start` and
non-overlapping; a transcript segment spans positive time. -/

/-- Well-formed transcript: each segment ends no later than any later segment
starts, and every segment has positive length. -/
def Ordered (segs : List TranscriptSegment) : Prop :=
  List.Pairwise (fun a b => a.stop ≤ b.start) segs ∧ ∀ s ∈ segs, s.start < s.stop

instance (segs : List TranscriptSegment) : Decidable (Ordered segs) := by
  unfold Ordered; infer_instance

/-! ## Properties of the candidate scan -/

theorem segGet_eq_getElem (segs : List TranscriptSegment) (i : ℕ) (h : i < segs.length) :
    segGet segs i = segs[i] := by
  simp [segGet, List.getD_eq_getElem, h]

theorem ordered_stop_le_start (segs : List TranscriptSegment) (hord : Ordered segs)
    {i j : ℕ} (hij : i < j) (hj : j < segs.length) :
    (segGet segs i).stop ≤ (segGet segs j).start := by
  rw [segGet_eq_getElem segs i (lt_trans hij hj), segGet_eq_getElem segs j hj]
  exact (List.pairwise_iff_getElem.mp hord.1) i j (lt_trans hij hj) hj hij

theorem ordered_start_lt_stop (segs : List TranscriptSegment) (hord : Ordered segs)
    {i : ℕ} (hi : i < segs.length) :
    (segGet segs i).start < (segGet segs i).stop := by
  rw [segGet_eq_getElem segs i hi]
  exact hord.2 _ (List.getElem_mem hi)

theorem ordered_stop_mono (segs : List TranscriptSegment) (hord : Ordered segs)
    {j k : ℕ} (hjk : j ≤ k) (hk : k < segs.length) :
    (segGet segs j).stop ≤ (segGet segs k).stop := by
  rcases Nat.lt_or_ge j k with h | h
  · exact le_trans (ordered_stop_le_start segs hord h hk)
      (le_of_lt (ordered_start_lt_stop segs hord hk))
  · have : j = k := le_antisymm hjk h
    simp [this]

theorem windowDur_mono (segs : List TranscriptSegment) (hord : Ordered segs)
    (i : ℕ) {j k : ℕ} (hjk : j ≤ k) (hk : k < segs.length) :
    windowDur segs i j ≤ windowDur segs i k :=
  sub_le_sub_right (ordered_stop_mono segs hord hjk hk) _

/-- Membership characterization of the inner loop: under orderedness the
`break` on `duration > maxDuration` discards exactly the windows outside the
bounds, so the loop from `j` emits precisely the qualifying windows
`[i, k]` with `k ≥ j`. -/
theorem mem_innerScan (segs : List TranscriptSegment) (minD maxD : ℚ)
    (hord : Ordered segs) (i : ℕ) (m : ViralMoment) :
    ∀ fuel j, segs.length ≤ j + fuel →
      (m ∈ innerScan segs minD maxD i j fuel ↔
        ∃ k, j ≤ k ∧ k < segs.length ∧ minD ≤ windowDur segs i k ∧
          windowDur segs i k ≤ maxD ∧ 0.5 < windowScoreOf segs i k ∧
          m = mkWindowMoment segs i k) := by
  intro fuel
  induction fuel with
  | zero =>
    intro j hj
    simp only [innerScan, List.not_mem_nil, false_iff]
    rintro ⟨k, hjk, hk, -⟩
    omega
  | succ fuel ih =>
    intro j hj
    by_cases hjn : j < segs.length
    · have hrec := ih (j + 1) (by omega)
      simp only [innerScan, if_pos hjn]
      by_cases h1 : windowDur segs i j < minD
      · rw [if_pos h1, hrec]
        constructor
        · rintro ⟨k, hk1, hk⟩; exact ⟨k, by omega, hk⟩
        · rintro ⟨k, hk1, hk2, hk3, hk⟩
          refine ⟨k, ?_, hk2, hk3, hk⟩
          rcases Nat.eq_or_lt_of_le hk1 with rfl | h
          · exact absurd hk3 (not_le.mpr h1)
          · omega
      · rw [if_neg h1]
        by_cases h2 : maxD < windowDur segs i j
        · rw [if_pos h2]
          simp only [List.not_mem_nil, false_iff]
          rintro ⟨k, hk1, hk2, -, hk4, -⟩
          exact absurd (lt_of_lt_of_le h2 (le_trans (windowDur_mono segs hord i hk1 hk2) hk4))
            (lt_irrefl _)
        · rw [if_neg h2]
          by_cases h3 : (0.5 : ℚ) < windowScoreOf segs i j
          · rw [if_pos h3]
            simp only [List.cons_append, List.nil_append, List.mem_cons, hrec]
            constructor
            · rintro (rfl | ⟨k, hk1, hk⟩)
              · exact ⟨j, le_refl j, hjn, not_lt.mp h1, not_lt.mp h2, h3, rfl⟩
              · exact ⟨k, by omega, hk⟩
            · rintro ⟨k, hk1, hk2, hk3, hk4, hk5, hk6⟩
              rcases Nat.eq_or_lt_of_le hk1 with rfl | h
              · exact Or.inl hk6
              · exact Or.inr ⟨k, by omega, hk2, hk3, hk4, hk5, hk6⟩
          · rw [if_neg h3]
            simp only [List.nil_append, hrec]
            constructor
            · rintro ⟨k, hk1, hk⟩; exact ⟨k, by omega, hk⟩
            · rintro ⟨k, hk1, hk2, hk3, hk4, hk5, hk6⟩
              rcases Nat.eq_or_lt_of_le hk1 with rfl | h
              · exact absurd hk5 h3
              · exact ⟨k, by omega, hk2, hk3, hk4, hk5, hk6⟩
    · simp only [innerScan, if_neg hjn, List.not_mem_nil, false_iff]
      rintro ⟨k, hk1, hk2, -⟩
      omega

/-- Membership characterization of the whole scan: a moment is produced
exactly for the windows `[i, j]` with `i < j` (at least two segments), span
within bounds, and heuristic score above `0.5`. -/
theorem mem_detectCandidates (segs : List TranscriptSegment) (minD maxD : ℚ)
    (hord : Ordered segs) (m : ViralMoment) :
    m ∈ detectCandidates segs minD maxD ↔
      ∃ i j, i < j ∧ j < segs.length ∧ minD ≤ windowDur segs i j ∧
        windowDur segs i j ≤ maxD ∧ 0.5 < windowScoreOf segs i j ∧
        m = mkWindowMoment segs i j := by
  unfold detectCandidates
  rw [List.mem_flatMap]
  constructor
  · rintro ⟨i, hi, hm⟩
    rw [List.mem_range] at hi
    obtain ⟨k, hk1, hk⟩ := (mem_innerScan segs minD maxD hord i m segs.length (i + 1)
      (by omega)).mp hm
    exact ⟨i, k, by omega, hk⟩
  · rintro ⟨i, j, hij, hj, hrest⟩
    refine ⟨i, List.mem_range.mpr (by omega), ?_⟩
    exact (mem_innerScan segs minD maxD hord i m segs.length (i + 1) (by omega)).mpr
      ⟨j, by omega, hj, hrest⟩

/-! ## Properties of the stable descending sort -/

instance : IsTotal ViralMoment scoreGe := ⟨fun a b => le_total b.score a.score⟩

instance : IsTrans ViralMoment scoreGe := ⟨fun _ _ _ h1 h2 => le_trans h2 h1⟩

theorem sorted_sortByScoreDesc (l : List ViralMoment) :
    List.Sorted scoreGe (sortByScoreDesc l) :=
  List.sorted_insertionSort scoreGe l

theorem sortByScoreDesc_eq_of_sorted {l : List ViralMoment}
    (h : List.Sorted scoreGe l) : sortByScoreDesc l = l :=
  h.insertionSort_eq

theorem filter_orderedInsert_pos (p : ViralMoment → Bool) (m : ViralMoment)
    (hp : p m = true) (hcmp : ∀ x, p x = true → scoreGe m x) :
    ∀ l : List ViralMoment,
      (List.orderedInsert scoreGe m l).filter p = m :: l.filter p := by
  intro l
  induction l with
  | nil => simp [List.orderedInsert, hp]
  | cons b t ih =>
    by_cases hb : scoreGe m b
    · simp [List.orderedInsert, if_pos hb, List.filter_cons, hp]
    · have hpb : p b = false := by
        cases hpb : p b
        · rfl
        · exact absurd (hcmp b hpb) hb
      simp [List.orderedInsert, if_neg hb, List.filter_cons, hpb, ih]

theorem filter_orderedInsert_neg (p : ViralMoment → Bool) (m : ViralMoment)
    (hp : p m = false) :
    ∀ l : List ViralMoment,
      (List.orderedInsert scoreGe m l).filter p = l.filter p := by
  intro l
  induction l with
  | nil => simp [List.orderedInsert, hp]
  | cons b t ih =>
    by_cases hb : scoreGe m b
    · simp [List.orderedInsert, if_pos hb, List.filter_cons, hp]
    · simp [List.orderedInsert, if_neg hb, List.filter_cons, ih]

/-- Stability of the sort, in filter form: elements picked out by a predicate
that only looks at the score (so that any two selected elements compare
equal) appear in the sorted list exactly as they appeared in the input. -/
theorem filter_sortByScoreDesc (p : ViralMoment → Bool)
    (hcmp : ∀ x y, p x = true → p y = true → scoreGe x y) :
    ∀ l : List ViralMoment, (sortByScoreDesc l).filter p = l.filter p := by
  intro l
  induction l with
  | nil => rfl
  | cons b t ih =>
    show (List.orderedInsert scoreGe b (List.insertionSort scoreGe t)).filter p = _
    cases hpb : p b
    · rw [filter_orderedInsert_neg p b hpb, List.filter_cons_of_neg (by simp [hpb])]
      exact ih
    · rw [filter_orderedInsert_pos p b hpb (fun x hx => hcmp b x hpb hx),
        List.filter_cons_of_pos (by simp [hpb])]
      exact congrArg _ ih

/-- The specific stability predicate used by the claims: an exact score. -/
theorem filter_score_sortByScoreDesc (q : ℚ) (l : List ViralMoment) :
    (sortByScoreDesc l).filter (fun m => decide (m.score = q)) =
      l.filter (fun m => decide (m.score = q)) := by
  refine filter_sortByScoreDesc _ ?_ l
  intro x y hx hy
  simp only [decide_eq_true_eq] at hx hy
  show y.score ≤ x.score
  rw [hx, hy]

/-- Taking a prefix then filtering yields a prefix of the filtered list. -/
theorem filter_take_append (p : ViralMoment → Bool) (l : List ViralMoment) (n : ℕ) :
    (l.take n).filter p ++ (l.drop n).filter p = l.filter p := by
  rw [← List.filter_append, List.take_append_drop]

/-! ## Claim C1: the Moment Scorer's window characterization -/

/-- C1 as stated: every contiguous window `[i, j]` (including single-segment
windows `i = j`) whose span is in bounds and whose score exceeds `0.5` is
emitted, no others are, and every emitted candidate has its duration in
bounds with `start < end`. -/
def momentScorerClaim (segs : List TranscriptSegment) (minD maxD : ℚ) : Prop :=
  (∀ m, m ∈ detectCandidates segs minD maxD ↔
    ∃ i j, i ≤ j ∧ j < segs.length ∧ minD ≤ windowDur segs i j ∧
      windowDur segs i j ≤ maxD ∧ 0.5 < windowScoreOf segs i j ∧
      m = mkWindowMoment segs i j) ∧
  (∀ m ∈ detectCandidates segs minD maxD,
    minD ≤ m.stop - m.start ∧ m.stop - m.start ≤ maxD ∧ m.start < m.stop)

/-- C1, counterexample: an ordered one-segment transcript whose single-segment
window `[0, 0]` spans 20s (inside the bounds 10..60) and scores above `0.5`,
yet the scan — whose inner index starts at `i + 1` — emits nothing. -/
theorem claimC1_counterexample :
    ¬ (Ordered [⟨"Why? What! Now!".data, 0, 20⟩] →
       [(⟨"Why? What! Now!".data, 0, 20⟩ : TranscriptSegment)] ≠ [] →
       momentScorerClaim [⟨"Why? What! Now!".data, 0, 20⟩] 10 60) := by
  intro h
  have hc := (h (by with_unfolding_all decide) (by simp)).1
    (mkWindowMoment [⟨"Why? What! Now!".data, 0, 20⟩] 0 0)
  have hmem := hc.mpr ⟨0, 0, le_refl 0, by decide, by with_unfolding_all decide,
    by with_unfolding_all decide, by with_unfolding_all decide, rfl⟩
  have hnil : detectCandidates [⟨"Why? What! Now!".data, 0, 20⟩] 10 60 = [] := by
    with_unfolding_all decide
  rw [hnil] at hmem
  exact List.not_mem_nil _ hmem

/-- C1, amended: same as stated, except that only windows of at least two
segments (`i < j`) are scanned — the inner loop starts at `j = i + 1`, so a
single-segment window is never considered. On those windows the
characterization and the emitted-candidate bounds hold as claimed. -/
theorem claimC1_amended (segs : List TranscriptSegment) (minD maxD : ℚ)
    (hord : Ordered segs) (_hne : segs ≠ []) :
    (∀ m, m ∈ detectCandidates segs minD maxD ↔
      ∃ i j, i < j ∧ j < segs.length ∧ minD ≤ windowDur segs i j ∧
        windowDur segs i j ≤ maxD ∧ 0.5 < windowScoreOf segs i j ∧
        m = mkWindowMoment segs i j) ∧
    (∀ m ∈ detectCandidates segs minD maxD,
      minD ≤ m.stop - m.start ∧ m.stop - m.start ≤ maxD ∧ m.start < m.stop) := by
  refine ⟨mem_detectCandidates segs minD maxD hord, ?_⟩
  intro m hm
  obtain ⟨i, j, hij, hj, hd1, hd2, -, rfl⟩ :=
    (mem_detectCandidates segs minD maxD hord m).mp hm
  refine ⟨hd1, hd2, ?_⟩
  show (segGet segs i).start < (segGet segs j).stop
  calc (segGet segs i).start
      < (segGet segs i).stop := ordered_start_lt_stop segs hord (lt_trans hij hj)
    _ ≤ (segGet segs j).start := ordered_stop_le_start segs hord hij hj
    _ < (segGet segs j).stop := ordered_start_lt_stop segs hord hj

/-- C1, witness: on a concrete ordered two-segment transcript the amended
characterization certifies that the qualifying window `[0, 1]` is emitted. -/
theorem claimC1_witness :
    mkWindowMoment [⟨"Why?".data, 0, 6⟩, ⟨"What! Now!".data, 8, 14⟩] 0 1 ∈
      detectCandidates [⟨"Why?".data, 0, 6⟩, ⟨"What! Now!".data, 8, 14⟩] 10 60 :=
  ((claimC1_amended [⟨"Why?".data, 0, 6⟩, ⟨"What! Now!".data, 8, 14⟩] 10 60
      (by with_unfolding_all decide) (by simp)).1 _).mpr
    ⟨0, 1, by decide, by decide, by with_unfolding_all decide,
     by with_unfolding_all decide, by with_unfolding_all decide, rfl⟩

/-! ## Claim C2: detector output bound, ordering and tie-breaking -/

/-- Placeholder moment for total list indexing. -/
def dummyMoment : ViralMoment := ⟨0, 0, 0, [], [], [], []⟩

/-- Position at which the window of a moment was first discovered by the
scan (same `start` and `end` identify the window). -/
def discoveryIndex (segs : List TranscriptSegment) (minD maxD : ℚ) (m : ViralMoment) : ℕ :=
  (detectCandidates segs minD maxD).findIdx
    (fun c => c.start == m.start && c.stop == m.stop)

/-- The tie-breaking part of C2 as stated: in the final output, moments with
equal scores appear in the order their windows were originally discovered. -/
def tiesByDiscoveryClaim (resp : RankResponse) (segs : List TranscriptSegment)
    (minD maxD : ℚ) : Prop :=
  ∀ p q (hp : p < (detectViralMoments resp segs minD maxD).length)
      (hq : q < (detectViralMoments resp segs minD maxD).length),
    p < q →
    ((detectViralMoments resp segs minD maxD).get ⟨p, hp⟩).score =
      ((detectViralMoments resp segs minD maxD).get ⟨q, hq⟩).score →
    discoveryIndex segs minD maxD ((detectViralMoments resp segs minD maxD).get ⟨p, hp⟩) ≤
      discoveryIndex segs minD maxD ((detectViralMoments resp segs minD maxD).get ⟨q, hq⟩)

/-- The concrete transcript for the C2 counterexample: the scan discovers
window `[0, 1]` (score 0.94) before window `[1, 2]` (score 1). -/
def segsC2 : List TranscriptSegment :=
  [⟨"Why?".data, 0, 10⟩, ⟨"What! Now!".data, 12, 20⟩, ⟨"Wow! Crazy secret!?".data, 25, 35⟩]

/-- A successful ranking response assigning both submitted candidates the
same score 7/10. -/
def respC2 : RankResponse :=
  some [⟨1, 7, some "Hook".data⟩, ⟨2, 7, some "Strong".data⟩]

/-- C2, counterexample: after a successful refinement that assigns equal
scores to both candidates, the final output keeps them in refined-list order
(descending heuristic score), which here reverses the discovery order — the
first output moment was discovered second. -/
theorem claimC2_counterexample : ¬ tiesByDiscoveryClaim respC2 segsC2 10 25 := by
  intro h
  have h01 := h 0 1 (by with_unfolding_all decide) (by with_unfolding_all decide)
    (by decide) (by with_unfolding_all decide)
  exact absurd h01 (by with_unfolding_all decide)

/-- C2, amended: the final output has at most 10 moments sorted by
descending score, at most the top 20 heuristic candidates are passed to the
refiner, and both sorts are stable — equal-score moments appear in the final
output as a prefix of their order in the refined candidate list (which is
descending heuristic-score order); when the refinement leaves the list
unchanged (failure), equal-score moments appear in original discovery
order. The tie-break is by refined-list order, not by discovery order. -/
theorem claimC2_amended (resp : RankResponse) (segs : List TranscriptSegment)
    (minD maxD : ℚ) :
    (detectViralMoments resp segs minD maxD).length ≤ 10 ∧
    ((sortByScoreDesc (detectCandidates segs minD maxD)).take 20).length ≤ 20 ∧
    List.Sorted scoreGe (detectViralMoments resp segs minD maxD) ∧
    (∀ q : ℚ, ∃ t,
      (detectViralMoments resp segs minD maxD).filter (fun m => decide (m.score = q)) ++ t =
        (refineWithAI resp ((sortByScoreDesc (detectCandidates segs minD maxD)).take 20)).filter
          (fun m => decide (m.score = q))) ∧
    (resp = none → ∀ q : ℚ, ∃ t,
      (detectViralMoments resp segs minD maxD).filter (fun m => decide (m.score = q)) ++ t =
        (detectCandidates segs minD maxD).filter (fun m => decide (m.score = q))) := by
  refine ⟨?_, ?_, ?_, ?_, ?_⟩
  · simp only [detectViralMoments, List.length_take]
    exact min_le_left _ _
  · simp only [List.length_take]
    exact min_le_left _ _
  · exact (sorted_sortByScoreDesc _).sublist (List.take_sublist _ _)
  · intro q
    refine ⟨((sortByScoreDesc (refineWithAI resp
      ((sortByScoreDesc (detectCandidates segs minD maxD)).take 20))).drop 10).filter
        (fun m => decide (m.score = q)), ?_⟩
    rw [detectViralMoments, filter_take_append, filter_score_sortByScoreDesc]
  · rintro rfl q
    have h1 := filter_take_append (fun m => decide (m.score = q))
      (sortByScoreDesc (refineWithAI none
        ((sortByScoreDesc (detectCandidates segs minD maxD)).take 20))) 10
    have h2 := filter_take_append (fun m => decide (m.score = q))
      (sortByScoreDesc (detectCandidates segs minD maxD)) 20
    rw [filter_score_sortByScoreDesc] at h1 h2
    refine ⟨((sortByScoreDesc (refineWithAI none
        ((sortByScoreDesc (detectCandidates segs minD maxD)).take 20))).drop 10).filter
          (fun m => decide (m.score = q)) ++
      ((sortByScoreDesc (detectCandidates segs minD maxD)).drop 20).filter
          (fun m => decide (m.score = q)), ?_⟩
    rw [detectViralMoments, ← List.append_assoc, h1]
    show (refineWithAI none _).filter _ ++ _ = _
    rw [refineWithAI]
    rw [h2]

/-- C2, witness: the amended theorem applied with a failing refiner on the
concrete transcript; equal-score (here: all) retained moments extend to the
discovery-ordered filtered candidate list. -/
theorem claimC2_witness :
    ∃ t, (detectViralMoments none segsC2 10 25).filter (fun m => decide (m.score = 1)) ++ t =
      (detectCandidates segsC2 10 25).filter (fun m => decide (m.score = 1)) :=
  (claimC2_amended none segsC2 10 25).2.2.2.2 rfl 1

/-! ## Claim C3: refinement failure is transparent -/

theorem applyRankings_nil (moments : List ViralMoment) :
    applyRankings [] moments = moments := by
  show moments.enum.map _ = moments
  have : ∀ p : ℕ × ViralMoment,
      (match ([] : List Ranking).find? (fun r => r.clipNumber == p.1 + 1) with
        | some r =>
          { p.2 with
            score := r.viralScore / 10
            reason := match r.reason with
              | some s => if s.isEmpty then p.2.reason else s
              | none => p.2.reason }
        | none => p.2) = p.2 := fun _ => rfl
  simp only [applyRankings, this]
  exact List.enum_map_snd moments

theorem take_take_sortByScoreDesc (l : List ViralMoment) (a b : ℕ) (hab : a ≤ b) :
    (sortByScoreDesc ((sortByScoreDesc l).take b)).take a = (sortByScoreDesc l).take a := by
  rw [sortByScoreDesc_eq_of_sorted
    ((sorted_sortByScoreDesc l).sublist (List.take_sublist _ _)), List.take_take,
    min_eq_left hab]

/-- C3: when the ranking service fails (any throw, modelled `none`) or
returns a response without usable clip rankings (modelled `some []`), the
refiner returns its input unchanged and the detector's output coincides with
the heuristic-only detector; refinement failure never fails detection (the
detector is a total function whose fallback is exactly the heuristic path). -/
theorem claimC3 (segs : List TranscriptSegment) (minD maxD : ℚ)
    (moments : List ViralMoment) :
    refineWithAI none moments = moments ∧
    refineWithAI (some []) moments = moments ∧
    detectViralMoments none segs minD maxD = detectHeuristicOnly segs minD maxD ∧
    detectViralMoments (some []) segs minD maxD = detectHeuristicOnly segs minD maxD := by
  refine ⟨rfl, applyRankings_nil moments, ?_, ?_⟩
  · show (sortByScoreDesc ((sortByScoreDesc _).take 20)).take 10 = _
    exact take_take_sortByScoreDesc _ 10 20 (by norm_num)
  · show (sortByScoreDesc (refineWithAI (some [])
      ((sortByScoreDesc (detectCandidates segs minD maxD)).take 20))).take 10 = _
    rw [show refineWithAI (some [])
        ((sortByScoreDesc (detectCandidates segs minD maxD)).take 20) =
      (sortByScoreDesc (detectCandidates segs minD maxD)).take 20 from applyRankings_nil _]
    exact take_take_sortByScoreDesc _ 10 20 (by norm_num)

/-! ## Claim C4: score clamping and exact refinement overwrite -/

theorem refineWithAI_length (rankings : List Ranking) (moments : List ViralMoment) :
    (refineWithAI (some rankings) moments).length = moments.length := by
  simp [refineWithAI, applyRankings, List.enum_length]

theorem refineWithAI_getD (rankings : List Ranking) (moments : List ViralMoment)
    (i : ℕ) (h : i < moments.length) :
    (refineWithAI (some rankings) moments).getD i dummyMoment =
      (match rankings.find? (fun r => r.clipNumber == i + 1) with
        | some r =>
          { moments.getD i dummyMoment with
            score := r.viralScore / 10
            reason := match r.reason with
              | some s => if s.isEmpty then (moments.getD i dummyMoment).reason else s
              | none => (moments.getD i dummyMoment).reason }
        | none => moments.getD i dummyMoment) := by
  have hlen : i < (refineWithAI (some rankings) moments).length := by
    rw [refineWithAI_length]; exact h
  rw [List.getD_eq_getElem _ _ hlen, List.getD_eq_getElem _ _ h]
  simp only [refineWithAI, applyRankings, List.getElem_map, List.getElem_enum]

theorem ratMin_one_bounds (s : ℚ) (hs : 0 ≤ s) : 0 ≤ ratMin s 1 ∧ ratMin s 1 ≤ 1 := by
  rw [ratMin]
  split_ifs with h
  · exact ⟨hs, h⟩
  · exact ⟨by norm_num, le_refl 1⟩

/-- C4: for every window text and non-empty segment list, the heuristic
score lies in `[0, 1]`; a successful refinement overwrites the score of the
moment at (0-based) position `i` with exactly `viralScore / 10` when the
response addresses clip number `i + 1`, leaves the score unchanged when it
does not, and never touches `start`, `end`, `text`, `emotions`, `keywords`. -/
theorem claimC4 :
    (∀ (text : List Char) (segs : List TranscriptSegment), segs ≠ [] →
      0 ≤ calculateViralScore text segs ∧ calculateViralScore text segs ≤ 1) ∧
    (∀ (rankings : List Ranking) (moments : List ViralMoment),
      (refineWithAI (some rankings) moments).length = moments.length ∧
      ∀ i, i < moments.length →
        (∀ r, rankings.find? (fun x => x.clipNumber == i + 1) = some r →
          ((refineWithAI (some rankings) moments).getD i dummyMoment).score =
            r.viralScore / 10) ∧
        (rankings.find? (fun x => x.clipNumber == i + 1) = none →
          ((refineWithAI (some rankings) moments).getD i dummyMoment).score =
            (moments.getD i dummyMoment).score) ∧
        ((refineWithAI (some rankings) moments).getD i dummyMoment).start =
          (moments.getD i dummyMoment).start ∧
        ((refineWithAI (some rankings) moments).getD i dummyMoment).stop =
          (moments.getD i dummyMoment).stop ∧
        ((refineWithAI (some rankings) moments).getD i dummyMoment).text =
          (moments.getD i dummyMoment).text ∧
        ((refineWithAI (some rankings) moments).getD i dummyMoment).emotions =
          (moments.getD i dummyMoment).emotions ∧
        ((refineWithAI (some rankings) moments).getD i dummyMoment).keywords =
          (moments.getD i dummyMoment).keywords) := by
  constructor
  · intro text segs _hne
    show 0 ≤ ratMin _ 1 ∧ ratMin _ 1 ≤ 1
    have h0 : (0 : ℚ) ≤
        ((VIRAL_KEYWORDS.filter fun kw =>
            containsSub (text.map lowerChar) kw).length : ℚ) * 0.1 +
          ((EMOTION_KEYWORDS.foldl (fun count p =>
            count + (p.2.filter fun kw =>
              containsSub (text.map lowerChar) kw).length) 0 : ℕ) : ℚ) * 0.08 +
          (countChar '?' text : ℚ) * 0.15 + (countChar '!' text : ℚ) * 0.1 +
          (if ((segs.foldl (fun sum s => sum + s.text.length) 0 : ℕ) : ℚ) /
              (segs.length : ℚ) < 50 then 0.2 else 0) +
          (if 3 ≤ ((splitOnDelims text).filter trimNonempty).length ∧
              ((splitOnDelims text).filter trimNonempty).length ≤ 8 then 0.15 else 0) := by
      have t1 : (0 : ℚ) ≤ ((VIRAL_KEYWORDS.filter fun kw =>
          containsSub (text.map lowerChar) kw).length : ℚ) * 0.1 := by positivity
      have t2 : (0 : ℚ) ≤ ((EMOTION_KEYWORDS.foldl (fun count p =>
          count + (p.2.filter fun kw =>
            containsSub (text.map lowerChar) kw).length) 0 : ℕ) : ℚ) * 0.08 := by positivity
      have t3 : (0 : ℚ) ≤ (countChar '?' text : ℚ) * 0.15 := by positivity
      have t4 : (0 : ℚ) ≤ (countChar '!' text : ℚ) * 0.1 := by positivity
      have t5 : (0 : ℚ) ≤ if ((segs.foldl (fun sum s => sum + s.text.length) 0 : ℕ) : ℚ) /
          (segs.length : ℚ) < 50 then (0.2 : ℚ) else 0 := by split_ifs <;> norm_num
      have t6 : (0 : ℚ) ≤ if 3 ≤ ((splitOnDelims text).filter trimNonempty).length ∧
          ((splitOnDelims text).filter trimNonempty).length ≤ 8 then (0.15 : ℚ) else 0 := by
        split_ifs <;> norm_num
      linarith
    exact ratMin_one_bounds _ h0
  · intro rankings moments
    refine ⟨refineWithAI_length rankings moments, ?_⟩
    intro i hi
    rw [refineWithAI_getD rankings moments i hi]
    cases hfind : rankings.find? (fun x => x.clipNumber == i + 1) with
    | none => simp
    | some r => simp

/-- C4, witness: the bounds at a concrete text and one-segment window, and
the exact `7/10` overwrite of the second moment addressed as clip 2. -/
theorem claimC4_witness :
    (0 ≤ calculateViralScore "Wow".data [⟨"Wow".data, 0, 5⟩] ∧
      calculateViralScore "Wow".data [⟨"Wow".data, 0, 5⟩] ≤ 1) ∧
    ((refineWithAI (some [⟨2, 7, some "ok".data⟩])
        [⟨0, 5, 0.6, [], [], [], []⟩, ⟨5, 9, 0.8, [], [], [], []⟩]).getD 1 dummyMoment).score =
      7 / 10 :=
  ⟨claimC4.1 "Wow".data [⟨"Wow".data, 0, 5⟩] (by simp),
   ((claimC4.2 [⟨2, 7, some "ok".data⟩]
      [⟨0, 5, 0.6, [], [], [], []⟩, ⟨5, 9, 0.8, [], [], [], []⟩]).2 1 (by decide)).1
      ⟨2, 7, some "ok".data⟩ (by decide)⟩

/-! ## The clip pipeline (`processClips` in `src/app/api/process/route.ts`)

Abstract file contents stand for byte blobs; the per-clip working files are
the six deterministic paths derived from the clip id. The ffmpeg
invocations (`createClip`, the subtitle burn-in inside `addCaptionsToVideo`,
the zoom filter inside `addZoomPanEffect`, `generateThumbnail`) are external
black boxes modelled as per-clip oracles mapping input content to an
`Except`-style outcome; all surrounding control flow — flag defaulting, SRT
bookkeeping, deletions, the rename, the zoom-failure copy fallback, the
try/catch isolation — is embedded from the code. -/

/-- Opaque file contents (a byte blob). -/
def Content : Type := ℕ

instance : DecidableEq Content := inferInstanceAs (DecidableEq ℕ)
instance : OfNat Content n := inferInstanceAs (OfNat ℕ n)
instance : Repr Content := inferInstanceAs (Repr ℕ)
instance : Add Content := inferInstanceAs (Add ℕ)

/-- The JavaScript values a loosely-typed `config` field can hold. -/
inductive JsVal where
  | undef
  | bool (b : Bool)
  | str (s : String)
  | num (q : ℚ)
  | obj
deriving DecidableEq, Repr

/-- `config.addX !== false`: everything but the literal `false` enables. -/
def flagOn : JsVal → Bool
  | .bool false => false
  | _ => true

/-- JS truthiness of a config value (`NaN` does not arise here). -/
def jsTruthy : JsVal → Bool
  | .undef => false
  | .bool b => b
  | .str s => !s.isEmpty
  | .num q => decide (q ≠ 0)
  | .obj => true

/-- `config.format || '9:16'`. -/
def formatOf (v : JsVal) : JsVal :=
  if jsTruthy v then v else .str "9:16"

/-- The `config` object of a clip-render request; absent fields are
`undef`. -/
structure ClipConfigJs where
  format : JsVal
  addCaptions : JsVal
  addEmojis : JsVal
  addZoomPan : JsVal
deriving DecidableEq, Repr

/-- Per-clip oracle for the external transforms: `crop` depends on the
effective format value; `caption` on the emoji flag and the input video;
`zoom` returns `none` exactly when the zoom ffmpeg invocation throws (the
caller then copies the input); `thumb` maps the final video to a still.
`srt` is the content of the subtitle file written before the caption
invocation. -/
structure ClipEnv where
  crop : JsVal → Except String Content
  caption : Bool → Content → Except String Content
  zoom : Content → Option Content
  thumb : Content → Except String Content
  srt : Content

/-- The six per-clip paths: `{id}_base.mp4`, `{id}_base.srt`,
`{id}_captioned.mp4`, `{id}_final.mp4`, `{id}.mp4`, `{id}_thumb.jpg`.
`none` = absent from disk. -/
structure ClipFS where
  base : Option Content := none
  baseSrt : Option Content := none
  captioned : Option Content := none
  primeFinal : Option Content := none
  renamed : Option Content := none
  thumb : Option Content := none
deriving DecidableEq, Repr

/-- Steps 3 and 4 of the per-clip body plus the rename and the thumbnail
(lines 120-139): the zoom/pan effect with its copy fallback, the deletion of
the consumed processed file guarded by `processedPath !== baseClipPath`, the
rename to the final name, and the thumbnail. `processedIsBase` records
whether the captions stage was skipped (then `processedPath` is the base
path). -/
def zoomRenameThumb (env : ClipEnv) (addZoomPan processedIsBase : Bool)
    (pre : Content) (fs : ClipFS) : Except String (Content × Content) × ClipFS :=
  let step3 : Content × ClipFS :=
    if addZoomPan then
      let z := match env.zoom pre with
        | some z => z
        | none => pre
      let fsZ := { fs with primeFinal := some z }
      (z, if processedIsBase then fsZ else { fsZ with captioned := none })
    else (pre, fs)
  let finalC := step3.1
  let fsRen : ClipFS :=
    if addZoomPan then { step3.2 with primeFinal := none, renamed := some finalC }
    else if processedIsBase then { step3.2 with base := none, renamed := some finalC }
    else { step3.2 with captioned := none, renamed := some finalC }
  match env.thumb finalC with
  | .error e => (.error e, fsRen)
  | .ok t => (.ok (finalC, t), { fsRen with thumb := some t })

/-- The per-clip stage chain (lines 101-139): crop to the requested format,
optional caption burn-in (write SRT, invoke ffmpeg, delete SRT, delete the
base clip), optional zoom/pan, rename, thumbnail. Returns the outcome
(`ok (finalVideo, thumbnail)` or the first thrown error) together with the
final on-disk state of the clip's files. -/
def runClipStages (env : ClipEnv) (cfg : ClipConfigJs) :
    Except String (Content × Content) × ClipFS :=
  match env.crop (formatOf cfg.format) with
  | .error e => (.error e, {})
  | .ok b =>
    if flagOn cfg.addCaptions then
      match env.caption (flagOn cfg.addEmojis) b with
      | .error e => (.error e, { base := some b, baseSrt := some env.srt })
      | .ok c => zoomRenameThumb env (flagOn cfg.addZoomPan) false c { captioned := some c }
    else
      zoomRenameThumb env (flagOn cfg.addZoomPan) true b { base := some b }

/-- A `ProcessedClip` result entry (success carries the artifacts, failure
carries the error; the originating moment is always kept). -/
structure PClip where
  ready : Bool
  error : Option String
  moment : ViralMoment
  video : Option Content
  thumb : Option Content
  duration : Option ℚ
deriving DecidableEq, Repr

/-- The `try`/`catch` body for one moment: a throw in any stage yields a
`ready:false` entry carrying the error, otherwise a `ready:true` entry with
the artifacts and `duration = moment.end - moment.start`. -/
def processClip (env : ClipEnv) (cfg : ClipConfigJs) (m : ViralMoment) :
    PClip × ClipFS :=
  match runClipStages env cfg with
  | (.ok (v, t), fs) =>
    ({ ready := true, error := none, moment := m, video := some v, thumb := some t,
       duration := some (m.stop - m.start) }, fs)
  | (.error e, fs) =>
    ({ ready := false, error := some e, moment := m, video := none, thumb := none,
       duration := none }, fs)

/-- The whole loop of `processClips`: one entry per selected moment, in
order, with per-clip oracles indexed by position. -/
def processClipsRun (envs : ℕ → ClipEnv) (cfg : ClipConfigJs)
    (moments : List ViralMoment) : List (PClip × ClipFS) :=
  moments.enum.map (fun p => processClip (envs p.1) cfg p.2)

/-- Terminal job-store snapshot fields of a clip job. -/
structure ClipJobSnap where
  completed : Bool
  progress : ℕ
  currentStep : String
  processedClips : ℕ
  totalClips : ℕ
  result : Option (List PClip)
deriving DecidableEq

/-- The final `clipJobs.set` of `processClips` (lines 161-169): executed
after the loop regardless of how many clips failed. -/
def processClipsJob (envs : ℕ → ClipEnv) (cfg : ClipConfigJs)
    (moments : List ViralMoment) : ClipJobSnap :=
  { completed := true
    progress := 100
    currentStep := "Complete"
    processedClips := moments.length
    totalClips := moments.length
    result := some ((processClipsRun envs cfg moments).map Prod.fst) }

/-- The video content entering the rename: the zoom stage's output when
enabled (the input itself when the zoom invocation failed), the input
otherwise. -/
def zoomOut (env : ClipEnv) (addZoomPan : Bool) (pre : Content) : Content :=
  if addZoomPan then
    match env.zoom pre with
    | some z => z
    | none => pre
  else pre

/-- The claim's failure condition for one clip, read off the oracle: the
crop stage throws, or the caption stage (when enabled) throws, or the
thumbnail stage throws on the final video. The zoom stage cannot throw — its
failure is absorbed by the copy fallback. -/
def clipFails (env : ClipEnv) (cfg : ClipConfigJs) : Bool :=
  match env.crop (formatOf cfg.format) with
  | .error _ => true
  | .ok b =>
    match (if flagOn cfg.addCaptions then env.caption (flagOn cfg.addEmojis) b
           else .ok b) with
    | .error _ => true
    | .ok pre =>
      match env.thumb (zoomOut env (flagOn cfg.addZoomPan) pre) with
      | .error _ => true
      | .ok _ => false

/-! ## Pipeline lemmas -/

theorem zoomRenameThumb_fst (env : ClipEnv) (zp pib : Bool) (pre : Content) (fs : ClipFS) :
    (zoomRenameThumb env zp pib pre fs).1 =
      match env.thumb (zoomOut env zp pre) with
      | .error e => .error e
      | .ok t => .ok (zoomOut env zp pre, t) := by
  cases zp with
  | false =>
    cases ht : env.thumb pre <;> simp [zoomRenameThumb, zoomOut, ht]
  | true =>
    cases hz : env.zoom pre with
    | some z => cases ht : env.thumb z <;> simp [zoomRenameThumb, zoomOut, hz, ht]
    | none => cases ht : env.thumb pre <;> simp [zoomRenameThumb, zoomOut, hz, ht]

theorem runClipStages_fst (env : ClipEnv) (cfg : ClipConfigJs) :
    (runClipStages env cfg).1 =
      match env.crop (formatOf cfg.format) with
      | .error e => .error e
      | .ok b =>
        match (if flagOn cfg.addCaptions then env.caption (flagOn cfg.addEmojis) b
               else .ok b) with
        | .error e => .error e
        | .ok pre =>
          match env.thumb (zoomOut env (flagOn cfg.addZoomPan) pre) with
          | .error e => .error e
          | .ok t => .ok (zoomOut env (flagOn cfg.addZoomPan) pre, t) := by
  cases hcrop : env.crop (formatOf cfg.format) with
  | error e => simp [runClipStages, hcrop]
  | ok b =>
    by_cases hcap : flagOn cfg.addCaptions
    · cases hc : env.caption (flagOn cfg.addEmojis) b with
      | error e => simp [runClipStages, hcrop, hcap, hc]
      | ok c => simp [runClipStages, hcrop, hcap, hc, zoomRenameThumb_fst]
    · simp only [runClipStages, hcrop, Bool.not_eq_true] at *
      simp [hcap, zoomRenameThumb_fst]

theorem processClip_moment (env : ClipEnv) (cfg : ClipConfigJs) (m : ViralMoment) :
    (processClip env cfg m).1.moment = m := by
  rcases h : runClipStages env cfg with ⟨res, fs⟩
  cases res with
  | ok v => rcases v with ⟨a, b⟩; simp [processClip, h]
  | error e => simp [processClip, h]

/-- Whether an external invocation succeeded. -/
def exceptOk {ε α : Type} : Except ε α → Bool
  | .ok _ => true
  | .error _ => false

theorem processClip_ready_exceptOk (env : ClipEnv) (cfg : ClipConfigJs) (m : ViralMoment) :
    (processClip env cfg m).1.ready = exceptOk (runClipStages env cfg).1 := by
  rcases h : runClipStages env cfg with ⟨res, fs⟩
  cases res with
  | ok v => rcases v with ⟨a, b⟩; simp [processClip, exceptOk, h]
  | error e => simp [processClip, exceptOk, h]

theorem processClip_ready_eq (env : ClipEnv) (cfg : ClipConfigJs) (m : ViralMoment) :
    (processClip env cfg m).1.ready = !clipFails env cfg := by
  rw [processClip_ready_exceptOk, runClipStages_fst, clipFails]
  cases hcrop : env.crop (formatOf cfg.format) with
  | error e => simp [exceptOk]
  | ok b =>
    cases hc : (if flagOn cfg.addCaptions then env.caption (flagOn cfg.addEmojis) b
        else .ok b) with
    | error e => simp [exceptOk, hc]
    | ok pre =>
      cases ht : env.thumb (zoomOut env (flagOn cfg.addZoomPan) pre) with
      | error e => simp [exceptOk, hc, ht]
      | ok t => simp [exceptOk, hc, ht]

theorem processClip_error_of_not_ready (env : ClipEnv) (cfg : ClipConfigJs)
    (m : ViralMoment) (h : (processClip env cfg m).1.ready = false) :
    (processClip env cfg m).1.error ≠ none := by
  rcases hr : runClipStages env cfg with ⟨res, fs⟩
  cases res with
  | ok v =>
    rcases v with ⟨a, b⟩
    rw [processClip, hr] at h
    exact absurd h (by simp)
  | error e =>
    rw [processClip, hr]
    simp

/-- The success-path characterization of one clip: given the stage outcomes,
the exact result and the exact final on-disk state. `pre` is the video
entering the zoom stage (the captioned video when captions are on, the base
clip otherwise). -/
theorem runClipStages_success (env : ClipEnv) (cfg : ClipConfigJs)
    (b pre t : Content)
    (hcrop : env.crop (formatOf cfg.format) = .ok b)
    (hcap : flagOn cfg.addCaptions = true → env.caption (flagOn cfg.addEmojis) b = .ok pre)
    (hpre : flagOn cfg.addCaptions = false → pre = b)
    (hth : env.thumb (zoomOut env (flagOn cfg.addZoomPan) pre) = .ok t) :
    runClipStages env cfg =
      (.ok (zoomOut env (flagOn cfg.addZoomPan) pre, t),
       { base := if flagOn cfg.addCaptions = false ∧ flagOn cfg.addZoomPan = true
           then some b else none
         baseSrt := none
         captioned := none
         primeFinal := none
         renamed := some (zoomOut env (flagOn cfg.addZoomPan) pre)
         thumb := some t }) := by
  cases hc : flagOn cfg.addCaptions with
  | true =>
    have hcapv := hcap hc
    cases hz : flagOn cfg.addZoomPan with
    | true =>
      cases hzo : env.zoom pre with
      | some z =>
        simp only [hz, zoomOut, hzo, if_true] at hth
        simp [runClipStages, zoomRenameThumb, zoomOut, hcrop, hc, hcapv, hz, hzo, hth]
      | none =>
        simp only [hz, zoomOut, hzo, if_true] at hth
        simp [runClipStages, zoomRenameThumb, zoomOut, hcrop, hc, hcapv, hz, hzo, hth]
    | false =>
      simp only [hz, zoomOut, Bool.false_eq_true, if_false] at hth
      simp [runClipStages, zoomRenameThumb, zoomOut, hcrop, hc, hcapv, hz, hth]
  | false =>
    have hprev := hpre hc
    subst hprev
    cases hz : flagOn cfg.addZoomPan with
    | true =>
      cases hzo : env.zoom pre with
      | some z =>
        simp only [hz, zoomOut, hzo, if_true] at hth
        simp [runClipStages, zoomRenameThumb, zoomOut, hcrop, hc, hz, hzo, hth]
      | none =>
        simp only [hz, zoomOut, hzo, if_true] at hth
        simp [runClipStages, zoomRenameThumb, zoomOut, hcrop, hc, hz, hzo, hth]
    | false =>
      simp only [hz, zoomOut, Bool.false_eq_true, if_false] at hth
      simp [runClipStages, zoomRenameThumb, zoomOut, hcrop, hc, hz, hth]

/-- Placeholder clip result for total list indexing. -/
def dummyPClip : PClip := ⟨false, none, dummyMoment, none, none, none⟩

/-- The result sequence of a clip-render run. -/
def clipResults (envs : ℕ → ClipEnv) (cfg : ClipConfigJs)
    (moments : List ViralMoment) : List PClip :=
  (processClipsRun envs cfg moments).map Prod.fst

theorem clipResults_length (envs : ℕ → ClipEnv) (cfg : ClipConfigJs)
    (moments : List ViralMoment) :
    (clipResults envs cfg moments).length = moments.length := by
  simp [clipResults, processClipsRun, List.enum_length]

theorem clipResults_getD (envs : ℕ → ClipEnv) (cfg : ClipConfigJs)
    (moments : List ViralMoment) (i : ℕ) (h : i < moments.length) :
    (clipResults envs cfg moments).getD i dummyPClip =
      (processClip (envs i) cfg (moments.getD i dummyMoment)).1 := by
  have hlen : i < (clipResults envs cfg moments).length := by
    rw [clipResults_length]; exact h
  rw [List.getD_eq_getElem _ _ hlen, List.getD_eq_getElem _ _ h]
  simp [clipResults, processClipsRun, List.getElem_map, List.getElem_enum]

/-! ## Claim C5: per-clip failure isolation and terminal job status -/

/-- C5: a clip-render run over `N` selected moments yields exactly `N`
result entries in the given order; a moment whose crop, caption, or
thumbnail stage throws yields a `ready = false` entry carrying an error
message while the loop continues (every later entry still exists); and the
terminal job snapshot is `completed` with `progress = 100` and
`processedClips = N` regardless of how many clips failed. -/
theorem claimC5 (envs : ℕ → ClipEnv) (cfg : ClipConfigJs) (moments : List ViralMoment) :
    (clipResults envs cfg moments).length = moments.length ∧
    (∀ i, i < moments.length →
      ((clipResults envs cfg moments).getD i dummyPClip).moment =
        moments.getD i dummyMoment) ∧
    (∀ i, i < moments.length → clipFails (envs i) cfg = true →
      ((clipResults envs cfg moments).getD i dummyPClip).ready = false ∧
      ((clipResults envs cfg moments).getD i dummyPClip).error ≠ none) ∧
    processClipsJob envs cfg moments =
      { completed := true
        progress := 100
        currentStep := "Complete"
        processedClips := moments.length
        totalClips := moments.length
        result := some (clipResults envs cfg moments) } := by
  refine ⟨clipResults_length envs cfg moments, ?_, ?_, rfl⟩
  · intro i hi
    rw [clipResults_getD envs cfg moments i hi]
    exact processClip_moment _ _ _
  · intro i hi hfail
    rw [clipResults_getD envs cfg moments i hi]
    have hready : (processClip (envs i) cfg (moments.getD i dummyMoment)).1.ready = false := by
      rw [processClip_ready_eq, hfail]
      rfl
    exact ⟨hready, processClip_error_of_not_ready _ _ _ hready⟩

/-- A concrete failing/succeeding oracle pair for the C5 witness: the first
moment's crop invocation throws, the second moment's stages all succeed. -/
def envsC5 : ℕ → ClipEnv
  | 0 => ⟨fun _ => .error "ffmpeg crop failed", fun _ c => .ok (c + 1),
          fun c => some (c + 2), fun c => .ok (c + 3), 99⟩
  | _ => ⟨fun _ => .ok 10, fun _ c => .ok (c + 1), fun c => some (c + 2),
          fun c => .ok (c + 3), 99⟩

/-- The all-enabled configuration (explicit values). -/
def cfgAll : ClipConfigJs := ⟨.str "9:16", .bool true, .bool true, .bool true⟩

/-- C5, witness: with two moments where exactly the first clip's crop throws,
the run still yields two entries, the first not ready with an error, and the
terminal snapshot is completed at 100 with both clips counted. -/
theorem claimC5_witness :
    (clipResults envsC5 cfgAll [dummyMoment, dummyMoment]).length = 2 ∧
    ((clipResults envsC5 cfgAll [dummyMoment, dummyMoment]).getD 0 dummyPClip).ready = false ∧
    ((clipResults envsC5 cfgAll [dummyMoment, dummyMoment]).getD 0 dummyPClip).error ≠ none ∧
    processClipsJob envsC5 cfgAll [dummyMoment, dummyMoment] =
      { completed := true
        progress := 100
        currentStep := "Complete"
        processedClips := 2
        totalClips := 2
        result := some (clipResults envsC5 cfgAll [dummyMoment, dummyMoment]) } := by
  have h := claimC5 envsC5 cfgAll [dummyMoment, dummyMoment]
  refine ⟨h.1, ?_, ?_, h.2.2.2⟩
  · exact ((h.2.2.1) 0 (by decide) (by with_unfolding_all decide)).1
  · exact ((h.2.2.1) 0 (by decide) (by with_unfolding_all decide)).2

/-! ## Claim C6: pan/zoom failure is absorbed -/

/-- C6: when the zoom invocation fails for a clip whose other stages
succeed, the clip is not failed: the zoom stage's output — and hence the
renamed final video — is a byte-identical copy of the pre-effect input, and
the clip completes with `ready = true`. -/
theorem claimC6 (env : ClipEnv) (cfg : ClipConfigJs) (m : ViralMoment)
    (b pre t : Content)
    (hzp : flagOn cfg.addZoomPan = true)
    (hcrop : env.crop (formatOf cfg.format) = .ok b)
    (hcap : flagOn cfg.addCaptions = true → env.caption (flagOn cfg.addEmojis) b = .ok pre)
    (hpre : flagOn cfg.addCaptions = false → pre = b)
    (hzoom : env.zoom pre = none)
    (hth : env.thumb pre = .ok t) :
    (processClip env cfg m).1.ready = true ∧
    (processClip env cfg m).1.video = some pre ∧
    (processClip env cfg m).2.renamed = some pre ∧
    (processClip env cfg m).2.primeFinal = none := by
  have hzo : zoomOut env (flagOn cfg.addZoomPan) pre = pre := by
    rw [hzp, zoomOut, if_pos rfl, hzoom]
  have hrun := runClipStages_success env cfg b pre t hcrop hcap hpre (by rw [hzo]; exact hth)
  rw [hzo] at hrun
  rw [processClip, hrun]
  simp

/-- C6, witness: a concrete clip whose zoom stage fails while every other
stage succeeds; the final video equals the captioned (pre-effect) video. -/
theorem claimC6_witness :
    (processClip ⟨fun _ => .ok 10, fun _ c => .ok (c + 1), fun _ => none,
        fun c => .ok (c + 3), 99⟩ cfgAll dummyMoment).1.ready = true ∧
    (processClip ⟨fun _ => .ok 10, fun _ c => .ok (c + 1), fun _ => none,
        fun c => .ok (c + 3), 99⟩ cfgAll dummyMoment).1.video = some 11 ∧
    (processClip ⟨fun _ => .ok 10, fun _ c => .ok (c + 1), fun _ => none,
        fun c => .ok (c + 3), 99⟩ cfgAll dummyMoment).2.renamed = some 11 :=
  have h := claimC6 ⟨fun _ => .ok 10, fun _ c => .ok (c + 1), fun _ => none,
      fun c => .ok (c + 3), 99⟩ cfgAll dummyMoment 10 11 14 rfl rfl
    (fun _ => rfl) (fun hf => absurd hf (by decide)) rfl rfl
  ⟨h.1, h.2.1, h.2.2.1⟩

/-! ## Claim C9: intermediate-file cleanup -/

/-- C9 as stated (its falsifiable end-state component): for every clip whose
stage chain succeeds, under every flag combination, no intermediate file
(base clip, SRT, captioned clip, pre-rename final) remains on disk at the
end of the clip's processing. -/
def clipCleanupClaim : Prop :=
  ∀ (env : ClipEnv) (cfg : ClipConfigJs) (res : Content × Content) (fs : ClipFS),
    runClipStages env cfg = (.ok res, fs) →
    fs.base = none ∧ fs.baseSrt = none ∧ fs.captioned = none ∧ fs.primeFinal = none

deriving instance DecidableEq for Except

/-- C9, counterexample: with captions disabled and zoom enabled, the guard
`processedPath !== baseClipPath` skips the deletion of the base clip, which
remains on disk after the clip completes. -/
theorem claimC9_counterexample : ¬ clipCleanupClaim := by
  intro h
  have := h ⟨fun _ => .ok 1, fun _ c => .ok (c + 1), fun c => some (c + 2),
      fun c => .ok (c + 3), 99⟩
    ⟨.undef, .bool false, .undef, .undef⟩ (3, 6)
    { base := some 1, renamed := some 3, thumb := some 6 } (by decide)
  exact absurd this.1 (by decide)

/-- C9, amended: for every clip whose stage chain succeeds, the SRT file,
the captioned intermediate and the pre-rename final never remain at the end,
and the base clip is also deleted — except in the single flag combination
`addCaptions = false` with `addZoomPan` enabled, where the base clip is
never deleted and remains on disk next to the final video and thumbnail. -/
theorem claimC9_amended (env : ClipEnv) (cfg : ClipConfigJs) (b pre t : Content)
    (hcrop : env.crop (formatOf cfg.format) = .ok b)
    (hcap : flagOn cfg.addCaptions = true → env.caption (flagOn cfg.addEmojis) b = .ok pre)
    (hpre : flagOn cfg.addCaptions = false → pre = b)
    (hth : env.thumb (zoomOut env (flagOn cfg.addZoomPan) pre) = .ok t) :
    (runClipStages env cfg).2.baseSrt = none ∧
    (runClipStages env cfg).2.captioned = none ∧
    (runClipStages env cfg).2.primeFinal = none ∧
    (runClipStages env cfg).2.base =
      (if flagOn cfg.addCaptions = false ∧ flagOn cfg.addZoomPan = true
        then some b else none) ∧
    (runClipStages env cfg).2.renamed =
      some (zoomOut env (flagOn cfg.addZoomPan) pre) ∧
    (runClipStages env cfg).2.thumb = some t := by
  rw [runClipStages_success env cfg b pre t hcrop hcap hpre hth]
  exact ⟨rfl, rfl, rfl, rfl, rfl, rfl⟩

/-- C9, witness: in the all-enabled configuration a successful clip leaves
exactly the final video and the thumbnail. -/
theorem claimC9_witness :
    (runClipStages ⟨fun _ => .ok 10, fun _ c => .ok (c + 1), fun c => some (c + 2),
        fun c => .ok (c + 3), 99⟩ cfgAll).2.base = none ∧
    (runClipStages ⟨fun _ => .ok 10, fun _ c => .ok (c + 1), fun c => some (c + 2),
        fun c => .ok (c + 3), 99⟩ cfgAll).2.baseSrt = none ∧
    (runClipStages ⟨fun _ => .ok 10, fun _ c => .ok (c + 1), fun c => some (c + 2),
        fun c => .ok (c + 3), 99⟩ cfgAll).2.captioned = none ∧
    (runClipStages ⟨fun _ => .ok 10, fun _ c => .ok (c + 1), fun c => some (c + 2),
        fun c => .ok (c + 3), 99⟩ cfgAll).2.primeFinal = none :=
  have h := claimC9_amended ⟨fun _ => .ok 10, fun _ c => .ok (c + 1), fun c => some (c + 2),
      fun c => .ok (c + 3), 99⟩ cfgAll 10 11 16 rfl (fun _ => rfl)
    (fun hf => absurd hf (by decide)) rfl
  ⟨by rw [h.2.2.2.1]; decide, h.1, h.2.1, h.2.2.1⟩

/-! ## Claim C10: configuration defaulting -/

/-- The request config with no `config` object at all (every field absent). -/
def cfgEmpty : ClipConfigJs := ⟨.undef, .undef, .undef, .undef⟩

/-- C10: each of `addCaptions`, `addEmojis`, `addZoomPan` is enabled
whenever its value is anything but the literal `false`; `format` defaults to
`9:16` when absent; and a request with no config at all processes clips
exactly as the fully-enabled explicit configuration (captions, emoji and
zoom/pan stages all run). -/
theorem claimC10 (cfg : ClipConfigJs)
    (h1 : cfg.addCaptions ≠ .bool false)
    (h2 : cfg.addEmojis ≠ .bool false)
    (h3 : cfg.addZoomPan ≠ .bool false) :
    flagOn cfg.addCaptions = true ∧
    flagOn cfg.addEmojis = true ∧
    flagOn cfg.addZoomPan = true ∧
    formatOf .undef = .str "9:16" ∧
    (∀ (env : ClipEnv) (m : ViralMoment),
      processClip env cfgEmpty m = processClip env cfgAll m) := by
  refine ⟨?_, ?_, ?_, rfl, fun env m => rfl⟩
  · cases hv : cfg.addCaptions with
    | bool bb => cases bb with
      | true => rfl
      | false => exact absurd hv h1
    | undef => rfl
    | str s => rfl
    | num q => rfl
    | obj => rfl
  · cases hv : cfg.addEmojis with
    | bool bb => cases bb with
      | true => rfl
      | false => exact absurd hv h2
    | undef => rfl
    | str s => rfl
    | num q => rfl
    | obj => rfl
  · cases hv : cfg.addZoomPan with
    | bool bb => cases bb with
      | true => rfl
      | false => exact absurd hv h3
    | undef => rfl
    | str s => rfl
    | num q => rfl
    | obj => rfl

/-- C10, witness: a config whose three toggle fields hold non-`false` values
of three different types is treated as fully enabled. -/
theorem claimC10_witness :
    flagOn (ClipConfigJs.mk .undef .undef (.str "x") (.num 3)).addCaptions = true ∧
    flagOn (ClipConfigJs.mk .undef .undef (.str "x") (.num 3)).addEmojis = true ∧
    flagOn (ClipConfigJs.mk .undef .undef (.str "x") (.num 3)).addZoomPan = true :=
  have h := claimC10 (ClipConfigJs.mk .undef .undef (.str "x") (.num 3))
    (by decide) (by decide) (by decide)
  ⟨h.1, h.2.1, h.2.2.1⟩

/-! ## The caption stage (`generateSRT`, `formatSRTTime`, `selectEmoji`) -/

/-- JS `Math.trunc` on an exact rational. -/
def jsTrunc (x : ℚ) : ℤ := if 0 ≤ x then ⌊x⌋ else ⌈x⌉

/-- The JS `%` operator (truncated remainder). -/
def jsMod (x y : ℚ) : ℚ := x - y * jsTrunc (x / y)

/-- Decimal rendering of a JS integer-valued number. -/
def intStr (i : ℤ) : List Char :=
  if i < 0 then '-' :: Nat.toDigits 10 i.natAbs else Nat.toDigits 10 i.toNat

/-- JS `String(n).padStart(k, '0')`. -/
def padStartZero (k : ℕ) (l : List Char) : List Char :=
  List.replicate (k - l.length) '0' ++ l

/-- `formatSRTTime(seconds)`. -/
def formatSRTTime (seconds : ℚ) : List Char :=
  let hours := ⌊seconds / 3600⌋
  let minutes := ⌊jsMod seconds 3600 / 60⌋
  let secs := ⌊jsMod seconds 60⌋
  let milliseconds := ⌊jsMod seconds 1 * 1000⌋
  padStartZero 2 (intStr hours) ++ ":".data ++ padStartZero 2 (intStr minutes) ++
    ":".data ++ padStartZero 2 (intStr secs) ++ ",".data ++ padStartZero 3 (intStr milliseconds)

/-- `EMOJI_MAP`. -/
def EMOJI_MAP : List (List Char × List (List Char)) :=
  [("excitement".data, ["🔥", "⚡", "💥", "🚀", "✨"].map String.data),
   ("surprise".data, ["😱", "🤯", "😮", "👀", "‼️"].map String.data),
   ("urgency".data, ["⏰", "🚨", "❗", "⚠️", "🔴"].map String.data),
   ("curiosity".data, ["🤔", "💭", "🧐", "❓", "🔍"].map String.data),
   ("controversy".data, ["💣", "🎯", "⛔", "🚫", "🔥"].map String.data),
   ("positive".data, ["😊", "❤️", "👍", "💯", "🎉"].map String.data),
   ("negative".data, ["😢", "😤", "💔", "👎", "⚠️"].map String.data)]

/-- `selectEmoji(text, emotions)`; `pick` is the random index drawn for the
emoji choice (reduced modulo the set size). Returns `[]` for the falsy empty
string. -/
def selectEmoji (text : List Char) (emotions : List (List Char)) (pick : ℕ) : List Char :=
  let lowerText := text.map lowerChar
  match emotions.find? (fun e => (EMOJI_MAP.find? (fun p => p.1 == e)).isSome) with
  | some e =>
    match EMOJI_MAP.find? (fun p => p.1 == e) with
    | some p => p.2.getD (pick % p.2.length) []
    | none => []
  | none =>
    if containsSub lowerText "!".data then "‼️".data
    else if containsSub lowerText "?".data then "🤔".data
    else if containsSub lowerText "love".data || containsSub lowerText "great".data then
      "❤️".data
    else if containsSub lowerText "bad".data || containsSub lowerText "hate".data then
      "😤".data
    else []

/-- One block of the SRT file: index line, time line, text line. -/
structure SrtEntry where
  index : ℕ
  startT : List Char
  stopT : List Char
  text : List Char
deriving DecidableEq, Repr

/-- Placeholder entry for total list indexing. -/
def dummyEntry : SrtEntry := ⟨0, [], [], []⟩

/-- `generateSRT(segments, moment, addEmojis)` as the sequence of subtitle
blocks it writes. The two `Math.random()` draws per segment (emoji choice
and the 0.5 gate) are supplied as oracles indexed by the segment's position
in the filtered list. -/
def srtEntries (segments : List TranscriptSegment) (m : ViralMoment) (addEmojis : Bool)
    (coin : ℕ → Bool) (pick : ℕ → ℕ) : List SrtEntry :=
  let relevantSegments := segments.filter
    (fun s => decide (m.start ≤ s.start) && decide (s.stop ≤ m.stop))
  relevantSegments.enum.map (fun p =>
    let text0 := jsTrim p.2.text
    let text :=
      if addEmojis then
        let emoji := selectEmoji text0 m.emotions (pick p.1)
        if !emoji.isEmpty && coin p.1 then emoji ++ " ".data ++ text0 else text0
      else text0
    { index := p.1 + 1
      startT := formatSRTTime (p.2.start - m.start)
      stopT := formatSRTTime (p.2.stop - m.start)
      text := text })

/-! ## Claim C7: caption segment selection and re-timing -/

/-- C7: the subtitle track contains exactly the transcript segments fully
contained in the moment (`s.start ≥ moment.start` and `s.end ≤ moment.end`,
both boundaries inclusive, partial overlaps excluded), in order, and each
entry's subtitle times are the segment's times shifted by `-moment.start`. -/
theorem claimC7 (segments : List TranscriptSegment) (m : ViralMoment)
    (addEmojis : Bool) (coin : ℕ → Bool) (pick : ℕ → ℕ) :
    (srtEntries segments m addEmojis coin pick).length =
      (segments.filter
        (fun s => decide (m.start ≤ s.start) && decide (s.stop ≤ m.stop))).length ∧
    (∀ s, s ∈ segments.filter
        (fun s => decide (m.start ≤ s.start) && decide (s.stop ≤ m.stop)) ↔
      s ∈ segments ∧ m.start ≤ s.start ∧ s.stop ≤ m.stop) ∧
    (∀ k, k < (segments.filter
        (fun s => decide (m.start ≤ s.start) && decide (s.stop ≤ m.stop))).length →
      ((srtEntries segments m addEmojis coin pick).getD k dummyEntry).index = k + 1 ∧
      ((srtEntries segments m addEmojis coin pick).getD k dummyEntry).startT =
        formatSRTTime (((segments.filter
          (fun s => decide (m.start ≤ s.start) && decide (s.stop ≤ m.stop))).getD
            k dummySeg).start - m.start) ∧
      ((srtEntries segments m addEmojis coin pick).getD k dummyEntry).stopT =
        formatSRTTime (((segments.filter
          (fun s => decide (m.start ≤ s.start) && decide (s.stop ≤ m.stop))).getD
            k dummySeg).stop - m.start)) := by
  refine ⟨by simp [srtEntries, List.enum_length], ?_, ?_⟩
  · intro s
    rw [List.mem_filter]
    simp
  · intro k hk
    have hlen : k < (srtEntries segments m addEmojis coin pick).length := by
      simpa [srtEntries, List.enum_length] using hk
    rw [List.getD_eq_getElem _ _ hlen, List.getD_eq_getElem _ _ hk]
    refine ⟨?_, ?_, ?_⟩ <;>
      simp [srtEntries, List.getElem_map, List.getElem_enum]

/-- C7, witness: a transcript with one segment strictly before the moment,
one exactly coinciding with it, and one overlapping its right boundary; only
the coinciding segment is captioned, re-timed to start at zero. -/
theorem claimC7_witness :
    ((⟨"b".data, 5, 9⟩ : TranscriptSegment) ∈
      ([⟨"a".data, 0, 5⟩, ⟨"b".data, 5, 9⟩, ⟨"c".data, 8, 12⟩] :
          List TranscriptSegment).filter
        (fun s => decide ((5 : ℚ) ≤ s.start) && decide (s.stop ≤ (9 : ℚ)))) ∧
    ((srtEntries [⟨"a".data, 0, 5⟩, ⟨"b".data, 5, 9⟩, ⟨"c".data, 8, 12⟩]
        ⟨5, 9, 1, [], [], [], []⟩ false (fun _ => false) (fun _ => 0)).getD 0
          dummyEntry).startT = formatSRTTime 0 := by
  constructor
  · exact (((claimC7 [⟨"a".data, 0, 5⟩, ⟨"b".data, 5, 9⟩, ⟨"c".data, 8, 12⟩]
      ⟨5, 9, 1, [], [], [], []⟩ false (fun _ => false) (fun _ => 0)).2.1 _).mpr
      ⟨by simp, by norm_num, by norm_num⟩)
  · have h := ((claimC7 [⟨"a".data, 0, 5⟩, ⟨"b".data, 5, 9⟩, ⟨"c".data, 8, 12⟩]
      ⟨5, 9, 1, [], [], [], []⟩ false (fun _ => false) (fun _ => 0)).2.2 0
      (by with_unfolding_all decide)).2.1
    rw [h]
    have : (([⟨"a".data, 0, 5⟩, ⟨"b".data, 5, 9⟩, ⟨"c".data, 8, 12⟩] :
        List TranscriptSegment).filter
          (fun s => decide ((5 : ℚ) ≤ s.start) && decide (s.stop ≤ (9 : ℚ)))).getD 0
            dummySeg = ⟨"b".data, 5, 9⟩ := by
      with_unfolding_all decide
    rw [this]
    norm_num

/-! ## The ingestion orchestrator (`processYouTubeVideo` in
`src/app/api/ingest/route.ts`)

Each collaborator call is an oracle delivering either its value or the
thrown error: the best-effort fast transcript fetch, the video download, the
audio extraction, the transcription, the moment detection (modelled at its
call boundary) and the duration probe. -/

structure IngestEnv where
  fastTranscript : Except String (List TranscriptSegment)
  download : Except String Unit
  extractAudio : Except String Unit
  transcribeRes : Except String (List TranscriptSegment)
  detectRes : Except String (List ViralMoment)
  probeDuration : Except String ℚ

inductive JobStatus where
  | processing
  | completed
  | failed
deriving DecidableEq, Repr

/-- The `result` object of a completed ingestion job (the `videoPath` and
`source` fields are request constants and omitted). -/
structure IngestResult where
  segments : List TranscriptSegment
  moments : List ViralMoment
  duration : ℚ
deriving DecidableEq, Repr

/-- A whole-entry job-store snapshot; fields absent from the written object
are `none`. -/
structure IngestSnap where
  status : JobStatus
  progress : Option ℕ
  currentStep : Option String
  result : Option IngestResult
  error : Option String
deriving DecidableEq, Repr

/-- `processYouTubeVideo` (lines 124-198): try the fast transcript; on its
failure download, extract audio and transcribe, otherwise just download;
then detect moments, probe the duration, and write the completed snapshot.
Any stage throw propagates. -/
def processYouTubeVideo (env : IngestEnv) : Except String IngestSnap := do
  let segments ←
    match env.fastTranscript with
    | .ok segs => do
      let _ ← env.download
      pure segs
    | .error _ => do
      let _ ← env.download
      let _ ← env.extractAudio
      env.transcribeRes
  let moments ← env.detectRes
  let duration ← env.probeDuration
  pure { status := .completed, progress := some 100, currentStep := some "Complete",
         result := some ⟨segments, moments, duration⟩, error := none }

/-- The whole-entry replacement written by the `.catch` at the submission
site (lines 59-66): only `id`, `status` and `error`. -/
def failedSnap (e : String) : IngestSnap :=
  { status := .failed, progress := none, currentStep := none, result := none,
    error := some e }

/-- The ingestion job's terminal store entry: the completed snapshot, or the
catch handler's failed snapshot. -/
def runIngestJob (env : IngestEnv) : IngestSnap :=
  match processYouTubeVideo env with
  | .ok snap => snap
  | .error e => failedSnap e

/-- Whether an executed mandatory stage threw: on the fast path (fast
transcript succeeded) extraction and transcription are skipped; the
fast-transcript fetch itself is best-effort and never counts. -/
def ingestStageFails (env : IngestEnv) : Bool :=
  match env.fastTranscript with
  | .error _ =>
    !exceptOk env.download || !exceptOk env.extractAudio ||
      !exceptOk env.transcribeRes || !exceptOk env.detectRes || !exceptOk env.probeDuration
  | .ok _ => !exceptOk env.download || !exceptOk env.detectRes || !exceptOk env.probeDuration

/-! ## Claim C8: ingestion failure discipline -/

/-- C8: if any mandatory stage after job creation throws (download, audio
extraction, transcription, moment detection, duration probing — but not the
best-effort fast-transcript fetch), the job's store entry becomes exactly
the terminal failed snapshot: status `failed`, an error message, and no
`result` (no partial result retained); when no mandatory stage throws, the
job completes with a result — even when the fast-transcript fetch failed. -/
theorem claimC8 (env : IngestEnv) :
    (ingestStageFails env = true → ∃ e, runIngestJob env = failedSnap e) ∧
    (ingestStageFails env = false → ∃ r : IngestResult,
      runIngestJob env =
        { status := .completed, progress := some 100, currentStep := some "Complete",
          result := some r, error := none }) := by
  rcases env with ⟨f, d, x, t, mo, p⟩
  cases f <;> cases d <;> cases x <;> cases t <;> cases mo <;> cases p <;>
    first
      | exact ⟨fun h => ⟨_, rfl⟩, fun h => Bool.noConfusion h⟩
      | exact ⟨fun h => Bool.noConfusion h, fun h => ⟨_, rfl⟩⟩

/-- C8, witness: a run whose download throws lands in the failed snapshot
with no result; the fast transcript fetch had succeeded. -/
theorem claimC8_witness :
    ∃ e, runIngestJob ⟨.ok [], .error "network down", .ok (), .ok [], .ok [], .ok 0⟩ =
      failedSnap e :=
  (claimC8 ⟨.ok [], .error "network down", .ok (), .ok [], .ok [], .ok 0⟩).1 rfl

end ViralClips
